/-
Verification of the Question Selection & Anti-Repetition Engine
(src/server/core/question-database.ts of Realm-Quiz-Wars).

Shallow embedding notes:
* `Question` mirrors the TS `Question` interface fields used by the engine
  (the unused optional fields `sourceType`, `sourceUrl`, `sourceTitle` and the
  flag `originalOrder` added by `shuffleQuestionOptions` are omitted: no
  engine code reads them).  `correct` is a TS `number` that the engine can set
  to `-1` (via `indexOf` on a missing value), so it is embedded as `Int`.
* Every call of JavaScript `Math.random()` inside a Fisher–Yates step
  `j = Math.floor(random() * bound)` is abstracted by an explicit choice
  stream `Nat → Nat`, reduced into range with `% bound`.  Every concrete
  execution of the program corresponds to some choice streams, and every
  choice stream describes a possible execution, so universally quantified
  theorems cover all runs and existential instances exhibit possible runs.
* JS `Set` (insertion ordered, deduplicating) is embedded as a `List String`
  without duplicates in insertion order; `Array.from`/`slice(-k)`/`new Set`
  round-trips become `List.drop`.  `Map.get` returning `undefined` becomes
  `Option`.
* JS `Array.prototype.slice(0, e)` with a possibly negative `e` is embedded
  by `jsSlice0`; `indexOf` returning `-1` by `jsIndexOf`; out-of-range array
  reads (`undefined`) by `jsGet` returning `none`.
* `Array.prototype.includes` on object arrays is reference equality in JS;
  bank arrays are built from distinct object literals, so it is embedded as
  value equality, and theorems that depend on it carry a `Nodup` hypothesis
  on the candidate list.
-/
import Mathlib

namespace RealmQuiz

/-- The `Question` record of `src/shared/types/api.ts` (engine-relevant fields). -/
structure Question where
  question : String
  options : List String
  correct : Int
  difficulty : String
  topic : String
  source : String
deriving DecidableEq, Repr

/-- The mutable fields of the `QuestionDatabase` class: `questionBank` and
`recentlyUsedQuestions` (both JS `Map`s). -/
structure DBState where
  bank : String → Option (List Question)
  recentlyUsed : String → Option (List String)

/-- `questionCooldownPeriod` field (line 9). -/
def questionCooldownPeriod : Nat := 10

/-- `getQuestionId`: the template string `${question.question}-${question.correct}`. -/
def getQuestionId (q : Question) : String :=
  q.question ++ "-" ++ toString q.correct

/-- JS array read `l[i]` : `undefined` (here `none`) when out of range. -/
def jsGet (l : List String) (i : Int) : Option String :=
  if h : 0 ≤ i ∧ i.toNat < l.length then some (l.get ⟨i.toNat, h.2⟩) else none

/-- JS `slice(0, e)`: a negative `e` counts from the end; result clamped to `[0, len]`. -/
def jsSlice0 (l : List α) (e : Int) : List α :=
  l.take (if 0 ≤ e then e.toNat else ((l.length : Int) + e).toNat)

/-- First index of an element satisfying `p`, starting the numbering at `i`;
`-1` when there is none (JS `indexOf` / `findIndex` behaviour). -/
def firstIdxAux (p : α → Bool) : List α → Nat → Int
  | [], _ => -1
  | x :: xs, i => if p x then (i : Int) else firstIdxAux p xs (i + 1)

/-- JS `l.indexOf s` on a string array. -/
def jsIndexOf (l : List String) (s : String) : Int :=
  firstIdxAux (fun x => x == s) l 0

/-- Swap two positions of a list; identity when either index is out of range
(mirrors the JS destructuring swap `[a[i], a[j]] = [a[j], a[i]]`). -/
def listSwap (l : List α) (i j : Nat) : List α :=
  match l.get? i, l.get? j with
  | some a, some b => (l.set i b).set j a
  | _, _ => l

/-- The descending Fisher–Yates loop `for (i = n; i > 0; i--) swap(i, rand i % (i+1))`. -/
def fyAux (rand : Nat → Nat) : Nat → List α → List α
  | 0, l => l
  | Nat.succ i, l => fyAux rand i (listSwap l (i + 1) (rand (i + 1) % (i + 2)))

/-- `shuffleArray` (lines 229-236): copy, then Fisher–Yates from `length-1` down to `1`. -/
def shuffleArray (rand : Nat → Nat) (l : List α) : List α :=
  fyAux rand (l.length - 1) l

/-- The ascending extra pass of `advancedShuffle`:
`for (i = 0; i < len; i++) swap(i, rand i % len)`; `k` counts remaining steps. -/
def pass2Aux (rand : Nat → Nat) : Nat → Nat → List α → List α
  | 0, _, l => l
  | Nat.succ k, i, l => pass2Aux rand k (i + 1) (listSwap l i (rand i % l.length))

/-- `advancedShuffle` (lines 163-183): a seeded Fisher–Yates pass followed by an
unseeded swap pass.  The seeded PRNG draws (derived from the session id hash or
the clock) and the `Math.random()` draws are abstracted as the choice streams
`rs` and `ru`, so quantifying over `rs` covers every session id. -/
def advancedShuffle (rs ru : Nat → Nat) (l : List α) : List α :=
  let shuffled := shuffleArray rs l
  pass2Aux ru shuffled.length 0 shuffled

/-- JS `toLowerCase()` (character-wise; the engine's realm names and topics
are ASCII, where this agrees with Unicode lowering). -/
def lowerString (s : String) : String :=
  ⟨s.data.map Char.toLower⟩

/-- Whether `s` begins with the two characters `r/`. -/
def startsWithRSlash (s : String) : Bool :=
  s.data.take 2 == ['r', '/']

/-- `normalizeRealmName` (lines 224-227): strip a leading `r/`, lowercase. -/
def normalizeRealmName (realm : String) : String :=
  if startsWithRSlash realm then lowerString ⟨realm.data.drop 2⟩ else lowerString realm

/-- `getCurrentRealm` (lines 153-158): lowercased topic of the first question,
`"general"` for an empty list or an empty (falsy) topic. -/
def getCurrentRealm (questions : List Question) : String :=
  match questions with
  | [] => "general"
  | q :: _ => if q.topic ≠ "" then lowerString q.topic else "general"

/-- `getBasicFallbackQuestions` (lines 265-317). -/
def getBasicFallbackQuestions : List Question :=
  [⟨"What does 'OP' stand for on Reddit?",
    ["Original Poster", "Online Person", "Open Post", "Other People"], 0, "easy", "Reddit", "fallback"⟩,
   ⟨"What is the purpose of upvoting on Reddit?",
    ["To like a post", "To show agreement", "To increase visibility", "All of the above"], 3, "easy", "Reddit", "fallback"⟩,
   ⟨"What is a subreddit?",
    ["A user profile", "A topic-specific community", "A type of post", "A Reddit feature"], 1, "easy", "Reddit", "fallback"⟩,
   ⟨"What does 'karma' represent on Reddit?",
    ["Points from upvotes/downvotes", "Time spent on Reddit", "Number of posts", "Account age"], 0, "easy", "Reddit", "fallback"⟩,
   ⟨"What is Reddit's slogan?",
    ["The Front Page of the Internet", "Where Communities Thrive", "Social News Aggregation", "The Voice of the Internet"], 0, "easy", "Reddit", "fallback"⟩,
   ⟨"What does 'AMA' stand for?",
    ["Ask Me Anything", "Always Make Answers", "All My Answers", "Ask More Again"], 0, "easy", "Reddit", "fallback"⟩]

/-- The candidate-resolution step of `getRandomQuestions` (lines 30-42):
realm bank, else `general` bank, else the built-in fallback set. -/
def resolveCorpus (bank : String → Option (List Question)) (realm : String) : List Question :=
  let rq := (bank (normalizeRealmName realm)).getD []
  let rq := if rq.isEmpty then (bank "general").getD [] else rq
  if rq.isEmpty then getBasicFallbackQuestions else rq

/-- `filterRecentlyUsedQuestions` (lines 104-118).  Returns the candidate list
to use and the updated state (the cooldown set is reset when fewer than 6
fresh candidates remain). -/
def filterRecentlyUsedQuestions (st : DBState) (questions : List Question)
    (realm : String) : List Question × DBState :=
  let recentlyUsed := (st.recentlyUsed realm).getD []
  let availableQuestions := questions.filter (fun q => !(recentlyUsed.contains (getQuestionId q)))
  if availableQuestions.length < 6 then
    (questions,
     { st with recentlyUsed := fun r => if r = realm then some [] else st.recentlyUsed r })
  else
    (availableQuestions, st)

/-- JS `Set.add`: append when absent, keep insertion order when present. -/
def setAdd (s : List String) (x : String) : List String :=
  if s.contains x then s else s ++ [x]

/-- The `forEach`/`add` loop of `trackRecentlyUsedQuestions`. -/
def setAddAll (s : List String) (ids : List String) : List String :=
  ids.foldl setAdd s

/-- `trackRecentlyUsedQuestions` (lines 123-141): insert the served ids, then
if the set exceeds `questionCooldownPeriod * 6` entries keep only the last
`questionCooldownPeriod * 3` (`Array.from` + `slice(-30)` + `new Set`). -/
def trackRecentlyUsedQuestions (st : DBState) (questions : List Question)
    (realm : String) : DBState :=
  let s0 := (st.recentlyUsed realm).getD []
  let s1 := setAddAll s0 (questions.map getQuestionId)
  let s2 := if questionCooldownPeriod * 6 < s1.length then
              s1.drop (s1.length - questionCooldownPeriod * 3)
            else s1
  { st with recentlyUsed := fun r => if r = realm then some s2 else st.recentlyUsed r }

/-- `clearRecentlyUsedQuestions` (lines 1201-1209): delete one realm key, or
clear the whole map. -/
def clearRecentlyUsedQuestions (st : DBState) (realm : Option String) : DBState :=
  match realm with
  | some r => { st with recentlyUsed := fun x => if x = r then none else st.recentlyUsed x }
  | none => { st with recentlyUsed := fun _ => none }

/-- `Math.ceil(count * 0.4)` for a JS integer `count` (exact: for every integer
in the engine's range the double product `count * 0.4` has the same ceiling
as the rational `2*count/5`). -/
def ceil04 (count : Nat) : Int :=
  ((2 * count + 4) / 5 : Nat)

/-- The per-tier selection `shuffleArray(bucket).slice(0, Math.min(target, bucket.length))`,
guarded by `bucket.length > 0` (lines 77-87). -/
def bucketTake (rand : Nat → Nat) (bucket : List Question) (target : Int) : List Question :=
  if 0 < bucket.length then
    jsSlice0 (shuffleArray rand bucket) (min target (bucket.length : Int))
  else []

/-- The independent choice streams consumed by one `getRandomQuestions` call. -/
structure Rands where
  easy : Nat → Nat
  medium : Nat → Nat
  hard : Nat → Nat
  fill : Nat → Nat
  opt : Nat → Nat → Nat
  seeded : Nat → Nat
  unseeded : Nat → Nat

/-- The tier-targeted phase of `getBalancedQuestionMix` (lines 69-87). -/
def tierPhase (r : Rands) (available : List Question) (count : Nat) : List Question :=
  let easyQuestions := available.filter (fun q => q.difficulty == "easy")
  let mediumQuestions := available.filter (fun q => q.difficulty == "medium")
  let hardQuestions := available.filter (fun q => q.difficulty == "hard")
  let easyCount := ceil04 count
  let mediumCount := ceil04 count
  let hardCount : Int := (count : Int) - easyCount - mediumCount
  bucketTake r.easy easyQuestions easyCount ++
    bucketTake r.medium mediumQuestions mediumCount ++
    bucketTake r.hard hardQuestions hardCount

/-- Tier phase plus the cross-tier backfill (lines 89-93). -/
def mixSelect (r : Rands) (available : List Question) (count : Nat) : List Question :=
  let sel0 := tierPhase r available count
  if sel0.length < count then
    sel0 ++ (shuffleArray r.fill
      (available.filter (fun q => !(sel0.contains q)))).take (count - sel0.length)
  else sel0

/-- `getBalancedQuestionMix` (lines 58-99): cooldown filter, tier mix with
backfill, cooldown tracking of the selection (pre-slice), final `slice(0, count)`. -/
def getBalancedQuestionMix (st : DBState) (questions : List Question) (count : Nat)
    (r : Rands) : List Question × DBState :=
  let realm := getCurrentRealm questions
  let fr := filterRecentlyUsedQuestions st questions realm
  let sel := mixSelect r fr.1 count
  let st2 := trackRecentlyUsedQuestions fr.2 sel realm
  (sel.take count, st2)

/-- The body of `shuffleQuestionOptions` for one question (lines 1163-1177):
capture the text at the current correct index, shuffle the options, take the
`indexOf` of the captured text as the new correct index. -/
def shuffleOneQuestion (rand : Nat → Nat) (q : Question) : Question :=
  let correctAnswer := jsGet q.options q.correct
  let shuffledOptions := shuffleArray rand q.options
  let newCorrectIndex := match correctAnswer with
    | some s => jsIndexOf shuffledOptions s
    | none => -1
  { q with options := shuffledOptions, correct := newCorrectIndex }

/-- `shuffleQuestionOptions` (lines 1160-1178): map `shuffleOneQuestion` over the
batch, each question consuming its own draws (`i` numbers the position). -/
def shuffleQuestionOptions (ropt : Nat → Nat → Nat) : List Question → Nat → List Question
  | [], _ => []
  | q :: qs, i => shuffleOneQuestion (ropt i) q :: shuffleQuestionOptions ropt qs (i + 1)

/-- `getRandomQuestions` (lines 29-52): resolve candidates with fallback,
balanced mix (which filters and tracks cooldown state), per-question option
shuffle, final two-pass batch shuffle. -/
def getRandomQuestions (st : DBState) (realm : String) (count : Nat)
    (r : Rands) : List Question × DBState :=
  let realmQuestions := resolveCorpus st.bank realm
  let mix := getBalancedQuestionMix st realmQuestions count r
  let questionsWithShuffledOptions := shuffleQuestionOptions r.opt mix.1 0
  (advancedShuffle r.seeded r.unseeded questionsWithShuffledOptions, mix.2)

/-- Tag each element with its position, starting at `i`. -/
def enumAux : Nat → List α → List (Nat × α)
  | _, [] => []
  | i, x :: xs => (i, x) :: enumAux (i + 1) xs

/-- Modelled from the spec (§4.5 Disambiguation requirement, §9): the
correct index relocated by tracking the original position through the same
permutation — "lookup by original index (not by text equality)".  Options are
tagged with their original positions, the tagged list is shuffled with the
same draws, and the new correct index is the position where the tag
`q.correct` landed. -/
def specTrackedCorrectIndex (rand : Nat → Nat) (q : Question) : Int :=
  firstIdxAux (fun pr => (pr.1 : Int) == q.correct)
    (shuffleArray rand (enumAux 0 q.options)) 0

/-! ### Concrete question data, verbatim from the source -/

/-- `COMPREHENSIVE_QUESTIONS.science` (lines 1339-1346). -/
def goldEasy : Question :=
  ⟨"What is the chemical symbol for gold?", ["Go", "Gd", "Au", "Ag"], 2, "easy", "Science", "fallback"⟩

/-- `generateDynamicScienceQuestions` (lines 867-874): identical text and
correct index, different difficulty tier; both land in the `science` bank. -/
def goldMedium : Question :=
  ⟨"What is the chemical symbol for gold?", ["Go", "Gd", "Au", "Ag"], 2, "medium", "Science", "dynamic"⟩

/-- Hard question from `generateDynamicScienceQuestions`. -/
def higgsQ : Question :=
  ⟨"What is the Higgs boson also known as?", ["God particle", "Dark matter", "Antimatter", "Quantum particle"], 0, "hard", "Science", "dynamic"⟩

/-- Hard question from `generateDynamicScienceQuestions`. -/
def lightSpeedQ : Question :=
  ⟨"What is the speed of light in a vacuum?", ["299,792,458 m/s", "300,000,000 m/s", "299,000,000 m/s", "301,000,000 m/s"], 0, "hard", "Science", "dynamic"⟩

/-- `COMPREHENSIVE_QUESTIONS.gaming` entries. -/
def gq1 : Question :=
  ⟨"Which company developed the Super Mario series?", ["Sony", "Nintendo", "Microsoft", "Sega"], 1, "easy", "Gaming", "fallback"⟩

def gq2 : Question :=
  ⟨"What is the highest-selling video game of all time?", ["Tetris", "Minecraft", "Grand Theft Auto V", "Fortnite"], 1, "easy", "Gaming", "fallback"⟩

def gq3 : Question :=
  ⟨"Which gaming console was released first?", ["PlayStation", "Xbox", "Nintendo 64", "Sega Genesis"], 3, "easy", "Gaming", "fallback"⟩

def gq4 : Question :=
  ⟨"Which character is the mascot of Sonic the Hedgehog series?", ["Tails", "Knuckles", "Sonic", "Shadow"], 2, "easy", "Gaming", "fallback"⟩

def gq5 : Question :=
  ⟨"Which game features the character Master Chief?", ["Call of Duty", "Halo", "Gears of War", "Destiny"], 1, "easy", "Gaming", "fallback"⟩

def gq6 : Question :=
  ⟨"What is the main currency in World of Warcraft?", ["Silver", "Gold", "Copper", "Platinum"], 1, "easy", "Gaming", "fallback"⟩

def gq7 : Question :=
  ⟨"Which company created the PlayStation?", ["Nintendo", "Microsoft", "Sony", "Sega"], 2, "easy", "Gaming", "fallback"⟩

/-- `generateAdditionalGamingQuestions` entry (lines 329-336). -/
def gq8 : Question :=
  ⟨"Which game engine powers Half-Life 2?", ["Unreal Engine", "Source Engine", "id Tech", "CryEngine"], 1, "medium", "Gaming", "fallback"⟩

/-- Choice streams that leave every Fisher–Yates pass in place
(`rand i = i`, so each step swaps a position with itself). -/
def randsId : Rands :=
  ⟨fun i => i, fun i => i, fun i => i, fun i => i, fun _ i => i, fun i => i, fun i => i⟩

/-- `rand i = i`: the in-place choice stream. -/
def idStream : Nat → Nat := fun i => i

/-- A question whose options contain two identical texts, with the second of
them correct (an input exercising the §4.5 disambiguation hazard). -/
def qdup : Question := ⟨"Q", ["A", "A", "B", "C"], 1, "easy", "T", "s"⟩

/-- Bank holding only the science fragment relevant to identity collision:
the two verbatim gold questions that the `science` bank receives from
`COMPREHENSIVE_QUESTIONS.science` and `generateDynamicScienceQuestions`. -/
def stC1 : DBState :=
  ⟨fun r => if r = "science" then some [goldEasy, goldMedium] else none, fun _ => none⟩

/-- Gaming bank of 7 verbatim questions with `gq1` on cooldown. -/
def stC5 : DBState :=
  ⟨fun r => if r = "gaming" then some [gq1, gq2, gq3, gq4, gq5, gq6, gq7] else none,
   fun r => if r = "gaming" then some [getQuestionId gq1] else none⟩

/-- Gaming bank of 8 verbatim questions with `gq1` on cooldown. -/
def stC7 : DBState :=
  ⟨fun r => if r = "gaming" then some [gq1, gq2, gq3, gq4, gq5, gq6, gq7, gq8] else none,
   fun r => if r = "gaming" then some [getQuestionId gq1] else none⟩

/-- Fresh state: a 7-question gaming bank, no cooldown entries. -/
def stFresh : DBState :=
  ⟨fun r => if r = "gaming" then some [gq1, gq2, gq3, gq4, gq5, gq6, gq7] else none,
   fun _ => none⟩

/-- 60 pre-existing served identities for realm `x`. -/
def servedC3 : List String := (List.range 60).map (fun i => "q" ++ toString i)

/-- Six fresh questions to serve into realm `x`. -/
def newQsC3 : List Question :=
  (List.range 6).map (fun i => ⟨"n" ++ toString i, ["a", "b", "c", "d"], 0, "easy", "X", "s"⟩)

def stC3 : DBState :=
  ⟨fun _ => none, fun r => if r = "x" then some servedC3 else none⟩

/-! ### Permutation facts about the shuffle primitives -/

theorem perm_cons_set {xs : List α} {k : Nat} {a b : α} (h : xs.get? k = some b) :
    (b :: xs.set k a).Perm (a :: xs) := by
  induction xs generalizing k with
  | nil => simp [List.get?] at h
  | cons y t ih =>
    cases k with
    | zero =>
      simp only [List.get?] at h
      cases h
      simpa using List.Perm.swap a b t
    | succ k =>
      simp only [List.get?] at h
      have step := ih (k := k) h
      have e : ((y :: t).set (k + 1) a) = y :: t.set k a := by simp [List.set]
      rw [e]
      exact ((List.Perm.swap y b _).trans (List.Perm.cons y step)).trans (List.Perm.swap a y t)

theorem set_set_swap_perm {l : List α} {i j : Nat} {a b : α}
    (h1 : l.get? i = some a) (h2 : l.get? j = some b) :
    ((l.set i b).set j a).Perm l := by
  induction l generalizing i j with
  | nil => simp [List.get?] at h1
  | cons x xs ih =>
    cases i with
    | zero =>
      simp only [List.get?] at h1
      cases h1
      cases j with
      | zero =>
        simp only [List.get?] at h2
        cases h2
        simp
      | succ k =>
        simp only [List.get?] at h2
        simpa [List.set] using perm_cons_set (a := a) h2
    | succ m =>
      cases j with
      | zero =>
        simp only [List.get?] at h1 h2
        cases h2
        simpa [List.set] using perm_cons_set (a := b) h1
      | succ k =>
        simp only [List.get?] at h1 h2
        simpa [List.set] using List.Perm.cons x (ih h1 h2)

theorem listSwap_perm (l : List α) (i j : Nat) : (listSwap l i j).Perm l := by
  unfold listSwap
  split
  · next h1 h2 => exact set_set_swap_perm h1 h2
  · exact List.Perm.refl l

theorem fyAux_perm (rand : Nat → Nat) : ∀ (n : Nat) (l : List α), (fyAux rand n l).Perm l
  | 0, _ => List.Perm.refl _
  | Nat.succ i, l =>
    List.Perm.trans (fyAux_perm rand i _) (listSwap_perm l (i + 1) (rand (i + 1) % (i + 2)))

theorem shuffleArray_perm (rand : Nat → Nat) (l : List α) : (shuffleArray rand l).Perm l :=
  fyAux_perm rand (l.length - 1) l

theorem shuffleArray_length (rand : Nat → Nat) (l : List α) :
    (shuffleArray rand l).length = l.length :=
  (shuffleArray_perm rand l).length_eq

theorem shuffleArray_nodup (rand : Nat → Nat) {l : List α} (h : l.Nodup) :
    (shuffleArray rand l).Nodup :=
  ((shuffleArray_perm rand l).nodup_iff).mpr h

theorem pass2Aux_perm (rand : Nat → Nat) :
    ∀ (k i : Nat) (l : List α), (pass2Aux rand k i l).Perm l
  | 0, _, _ => List.Perm.refl _
  | Nat.succ k, i, l =>
    List.Perm.trans (pass2Aux_perm rand k (i + 1) _) (listSwap_perm l i (rand i % l.length))

theorem advancedShuffle_perm (rs ru : Nat → Nat) (l : List α) :
    (advancedShuffle rs ru l).Perm l :=
  List.Perm.trans (pass2Aux_perm ru _ 0 _) (shuffleArray_perm rs l)

theorem listSwap_map (f : α → β) (l : List α) (i j : Nat) :
    listSwap (l.map f) i j = (listSwap l i j).map f := by
  unfold listSwap
  rcases h1 : l.get? i with _ | a <;> rcases h2 : l.get? j with _ | b <;>
    rw [List.get?_eq_getElem?] at h1 h2 <;>
    simp [List.get?_eq_getElem?, List.getElem?_map, h1, h2, List.map_set]

theorem fyAux_map (f : α → β) (rand : Nat → Nat) :
    ∀ (n : Nat) (l : List α), fyAux rand n (l.map f) = (fyAux rand n l).map f
  | 0, _ => rfl
  | Nat.succ i, l => by
    rw [fyAux, fyAux, listSwap_map, fyAux_map f rand i]

theorem shuffleArray_map (f : α → β) (rand : Nat → Nat) (l : List α) :
    shuffleArray rand (l.map f) = (shuffleArray rand l).map f := by
  unfold shuffleArray
  rw [List.length_map, fyAux_map]

/-! ### First-index lemmas -/

theorem firstIdxAux_eq_of_countP_one {p : α → Bool} :
    ∀ (l : List α) (i k : Nat) (hk : k < l.length),
      l.countP p = 1 → p (l.get ⟨k, hk⟩) = true → firstIdxAux p l i = ((i + k : Nat) : Int) := by
  intro l
  induction l with
  | nil => intro i k hk; exact absurd hk (by simp)
  | cons x xs ih =>
    intro i k hk hcount hpk
    by_cases hpx : p x = true
    · have hxs : xs.countP p = 0 := by
        rw [List.countP_cons, if_pos hpx] at hcount
        omega
      have hk0 : k = 0 := by
        by_contra hne
        obtain ⟨j, rfl⟩ := Nat.exists_eq_succ_of_ne_zero hne
        have hj : j < xs.length := by simpa using hk
        have hmem : xs.get ⟨j, hj⟩ ∈ xs := List.get_mem xs j hj
        have := List.countP_eq_zero.mp hxs _ hmem
        exact this (by simpa using hpk)
      subst hk0
      simp [firstIdxAux, hpx]
    · have hxs : xs.countP p = 1 := by
        rw [List.countP_cons, if_neg hpx] at hcount
        omega
      cases k with
      | zero => exact absurd (by simpa using hpk) hpx
      | succ j =>
        have hj : j < xs.length := by simpa using hk
        have step := ih (i + 1) j hj hxs (by simpa using hpk)
        have : firstIdxAux p (x :: xs) i = firstIdxAux p xs (i + 1) := by
          simp [firstIdxAux, hpx]
        rw [this, step]
        congr 1
        omega

theorem firstIdxAux_found {p : α → Bool} :
    ∀ (l : List α) (i : Nat), (∃ x ∈ l, p x = true) →
      ∃ (k : Nat) (hk : k < l.length),
        firstIdxAux p l i = ((i + k : Nat) : Int) ∧ p (l.get ⟨k, hk⟩) = true := by
  intro l
  induction l with
  | nil => intro i h; simp at h
  | cons x xs ih =>
    intro i h
    by_cases hpx : p x = true
    · exact ⟨0, by simp, by simp [firstIdxAux, hpx], by simpa using hpx⟩
    · have hxs : ∃ y ∈ xs, p y = true := by
        obtain ⟨y, hy, hpy⟩ := h
        rcases List.mem_cons.mp hy with rfl | hmem
        · exact absurd hpy hpx
        · exact ⟨y, hmem, hpy⟩
      obtain ⟨k, hk, heq, hpk⟩ := ih (i + 1) hxs
      refine ⟨k + 1, by simpa using Nat.succ_lt_succ hk, ?_, by simpa using hpk⟩
      have : firstIdxAux p (x :: xs) i = firstIdxAux p xs (i + 1) := by
        simp [firstIdxAux, hpx]
      rw [this, heq]
      congr 1
      omega

/-! ### Position-tagging lemmas -/

theorem enumAux_map_snd : ∀ (i : Nat) (l : List α), (enumAux i l).map Prod.snd = l
  | _, [] => rfl
  | i, x :: xs => by simp [enumAux, enumAux_map_snd (i + 1) xs]

theorem enumAux_length (i : Nat) (l : List α) : (enumAux i l).length = l.length := by
  have := congrArg List.length (enumAux_map_snd i l)
  simpa using this

theorem enumAux_get? : ∀ (i : Nat) (l : List α) (k : Nat),
    (enumAux i l).get? k = (l.get? k).map (fun x => (i + k, x))
  | _, [], k => by cases k <;> rfl
  | i, x :: xs, 0 => by simp [enumAux]
  | i, x :: xs, Nat.succ k => by
    have := enumAux_get? (i + 1) xs k
    simp only [enumAux, List.get?]
    rw [this]
    have harith : ∀ x : α, (i + 1 + k, x) = (i + (k + 1), x) := by
      intro x
      congr 1
      omega
    cases xs.get? k <;> simp [harith]

theorem enumAux_countP_fst : ∀ (i : Nat) (l : List α) (n : Nat),
    (enumAux i l).countP (fun pr => pr.1 == n)
      = if i ≤ n ∧ n < i + l.length then 1 else 0 := by
  intro i l
  induction l generalizing i with
  | nil =>
    intro n
    simp only [List.length_nil]
    rw [if_neg (by omega)]
    rfl
  | cons x xs ih =>
    intro n
    rw [enumAux, List.countP_cons, ih (i + 1) n]
    simp only [List.length_cons, beq_iff_eq]
    split_ifs <;> omega

/-! ### Option-shuffle lemmas -/

theorem shuffleOneQuestion_eq (rand : Nat → Nat) (q : Question) :
    shuffleOneQuestion rand q =
      { q with options := shuffleArray rand q.options,
               correct := match jsGet q.options q.correct with
                          | some s => jsIndexOf (shuffleArray rand q.options) s
                          | none => -1 } :=
  rfl

theorem jsGet_valid {l : List String} {c : Int} (h0 : 0 ≤ c) (hlt : c < (l.length : Int)) :
    ∃ h : c.toNat < l.length, jsGet l c = some (l.get ⟨c.toNat, h⟩) := by
  have h : c.toNat < l.length := by omega
  exact ⟨h, by simp [jsGet, h, h0]⟩

theorem jsIndexOf_spec {t : String} {l : List String} (h : t ∈ l) :
    ∃ (k : Nat) (hk : k < l.length), jsIndexOf l t = (k : Int) ∧ l.get ⟨k, hk⟩ = t := by
  obtain ⟨k, hk, heq, hpk⟩ :=
    firstIdxAux_found (p := fun x => x == t) l 0 ⟨t, h, by simp⟩
  refine ⟨k, hk, ?_, by simpa using hpk⟩
  simpa [jsIndexOf] using heq

/-- The per-question contract of the option shuffle: for a valid correct
index, the option count is preserved and the option at the relocated correct
index carries the text that was correct before shuffling. -/
theorem shuffleOneQuestion_correct_text (rand : Nat → Nat) (q : Question)
    (h0 : 0 ≤ q.correct) (hlt : q.correct < (q.options.length : Int)) :
    (shuffleOneQuestion rand q).options.length = q.options.length ∧
    jsGet (shuffleOneQuestion rand q).options (shuffleOneQuestion rand q).correct
      = jsGet q.options q.correct := by
  obtain ⟨hn, hget⟩ := jsGet_valid h0 hlt
  set t := q.options.get ⟨q.correct.toNat, hn⟩ with hT
  have hlen : (shuffleArray rand q.options).length = q.options.length :=
    shuffleArray_length rand q.options
  have hmem : t ∈ shuffleArray rand q.options :=
    (shuffleArray_perm rand q.options).mem_iff.mpr (List.get_mem q.options q.correct.toNat hn)
  obtain ⟨k, hk, hidx, hkt⟩ := jsIndexOf_spec hmem
  constructor
  · rw [shuffleOneQuestion_eq]
    exact hlen
  · rw [shuffleOneQuestion_eq, hget]
    simp only [hidx]
    have hk0 : (0 : Int) ≤ (k : Int) := by omega
    have hklen : (k : Int).toNat < (shuffleArray rand q.options).length := by
      simpa using hk
    have hkt' : (shuffleArray rand q.options)[k] = t := hkt
    simp [jsGet, hk0, hklen]
    exact ⟨hk, hkt'⟩

/-! ### Selection-subset lemmas -/

theorem filterRecentlyUsedQuestions_eq (st : DBState) (qs : List Question) (realm : String) :
    filterRecentlyUsedQuestions st qs realm =
      if (qs.filter
            (fun q => !(((st.recentlyUsed realm).getD []).contains (getQuestionId q)))).length < 6
      then (qs, { st with recentlyUsed :=
                    fun r => if r = realm then some [] else st.recentlyUsed r })
      else (qs.filter
              (fun q => !(((st.recentlyUsed realm).getD []).contains (getQuestionId q))), st) :=
  rfl

theorem trackRecentlyUsedQuestions_eq (st : DBState) (qs : List Question) (realm : String) :
    trackRecentlyUsedQuestions st qs realm =
      { st with recentlyUsed := fun r =>
          if r = realm then
            some (if questionCooldownPeriod * 6
                      < (setAddAll ((st.recentlyUsed realm).getD []) (qs.map getQuestionId)).length
                  then (setAddAll ((st.recentlyUsed realm).getD [])
                          (qs.map getQuestionId)).drop
                        ((setAddAll ((st.recentlyUsed realm).getD [])
                          (qs.map getQuestionId)).length - questionCooldownPeriod * 3)
                  else setAddAll ((st.recentlyUsed realm).getD []) (qs.map getQuestionId))
          else st.recentlyUsed r } :=
  rfl

theorem jsSlice0_sublist (l : List α) (e : Int) : (jsSlice0 l e).Sublist l :=
  List.take_sublist _ _

theorem bucketTake_subset (rand : Nat → Nat) (bucket : List Question) (target : Int) :
    bucketTake rand bucket target ⊆ bucket := by
  unfold bucketTake
  split
  · intro x hx
    exact (shuffleArray_perm rand bucket).subset ((jsSlice0_sublist _ _).subset hx)
  · intro x hx
    simp at hx

theorem tierPhase_subset (r : Rands) (available : List Question) (count : Nat) :
    tierPhase r available count ⊆ available := by
  intro x hx
  unfold tierPhase at hx
  rcases List.mem_append.mp hx with hx | hx
  · rcases List.mem_append.mp hx with hx | hx
    · exact List.filter_subset' _ (bucketTake_subset _ _ _ hx)
    · exact List.filter_subset' _ (bucketTake_subset _ _ _ hx)
  · exact List.filter_subset' _ (bucketTake_subset _ _ _ hx)

theorem mixSelect_eq (r : Rands) (available : List Question) (count : Nat) :
    mixSelect r available count =
      if (tierPhase r available count).length < count then
        tierPhase r available count ++
          (shuffleArray r.fill
            (available.filter (fun q => !((tierPhase r available count).contains q)))).take
            (count - (tierPhase r available count).length)
      else tierPhase r available count :=
  rfl

theorem mixSelect_subset (r : Rands) (available : List Question) (count : Nat) :
    mixSelect r available count ⊆ available := by
  rw [mixSelect_eq]
  split
  · intro x hx
    rcases List.mem_append.mp hx with hx | hx
    · exact tierPhase_subset _ _ _ hx
    · exact List.filter_subset' _
        ((shuffleArray_perm _ _).subset ((List.take_sublist _ _).subset hx))
  · exact tierPhase_subset _ _ _

theorem filterRecentlyUsed_fst_subset (st : DBState) (qs : List Question) (realm : String) :
    (filterRecentlyUsedQuestions st qs realm).1 ⊆ qs := by
  rw [filterRecentlyUsedQuestions_eq]
  split
  · exact fun x hx => hx
  · exact List.filter_subset' _

theorem shuffleQuestionOptions_mem {ropt : Nat → Nat → Nat} :
    ∀ (qs : List Question) (i : Nat) (q' : Question), q' ∈ shuffleQuestionOptions ropt qs i →
      ∃ (j : Nat) (q : Question), q ∈ qs ∧ q' = shuffleOneQuestion (ropt j) q := by
  intro qs
  induction qs with
  | nil => intro i q' h; simp [shuffleQuestionOptions] at h
  | cons q qs ih =>
    intro i q' h
    rw [shuffleQuestionOptions] at h
    rcases List.mem_cons.mp h with h | h
    · exact ⟨i, q, List.mem_cons_self q qs, h⟩
    · obtain ⟨j, p, hp, he⟩ := ih (i + 1) q' h
      exact ⟨j, p, List.mem_cons_of_mem q hp, he⟩

theorem getRandomQuestions_fst_eq (st : DBState) (realm : String) (count : Nat) (r : Rands) :
    (getRandomQuestions st realm count r).1 =
      advancedShuffle r.seeded r.unseeded (shuffleQuestionOptions r.opt
        (getBalancedQuestionMix st (resolveCorpus st.bank realm) count r).1 0) :=
  rfl

theorem getBalancedQuestionMix_fst_eq (st : DBState) (questions : List Question)
    (count : Nat) (r : Rands) :
    (getBalancedQuestionMix st questions count r).1 =
      (mixSelect r (filterRecentlyUsedQuestions st questions (getCurrentRealm questions)).1
        count).take count :=
  rfl

/-! ### Cooldown-state lemmas -/


theorem filterRecentlyUsed_state_bound {st : DBState} {questions : List Question}
    {realm : String} (h : ∀ r, ((st.recentlyUsed r).getD []).length ≤ questionCooldownPeriod * 6) :
    ∀ r, ((((filterRecentlyUsedQuestions st questions realm).2).recentlyUsed r).getD []).length
      ≤ questionCooldownPeriod * 6 := by
  intro r
  rw [filterRecentlyUsedQuestions_eq]
  split
  · dsimp only
    by_cases hr : r = realm
    · rw [if_pos hr]
      simp
    · rw [if_neg hr]
      exact h r
  · exact h r

theorem track_state_bound (st : DBState) (qs : List Question) (realm : String)
    (h : ∀ r, ((st.recentlyUsed r).getD []).length ≤ questionCooldownPeriod * 6) :
    ∀ r, ((((trackRecentlyUsedQuestions st qs realm).recentlyUsed r).getD [])).length
      ≤ questionCooldownPeriod * 6 := by
  intro r
  rw [trackRecentlyUsedQuestions_eq]
  dsimp only
  by_cases hr : r = realm
  · rw [if_pos hr, Option.getD_some]
    have hq : questionCooldownPeriod = 10 := rfl
    split
    · next hlen =>
      rw [List.length_drop]
      omega
    · next hlen => omega
  · rw [if_neg hr]
    exact h r

theorem clear_state_bound (st : DBState) (realmC : Option String)
    (h : ∀ r, ((st.recentlyUsed r).getD []).length ≤ questionCooldownPeriod * 6) :
    ∀ r, ((((clearRecentlyUsedQuestions st realmC).recentlyUsed r).getD [])).length
      ≤ questionCooldownPeriod * 6 := by
  intro r
  cases realmC with
  | none => simp [clearRecentlyUsedQuestions]
  | some x =>
    show (((if r = x then none else st.recentlyUsed r).getD [])).length ≤ _
    by_cases hr : r = x
    · rw [if_pos hr]
      simp
    · rw [if_neg hr]
      exact h r

/-! ### Selection length and distinctness lemmas -/

theorem nodup_subset_length_le {l₁ l₂ : List α} [DecidableEq α]
    (h1 : l₁.Nodup) (hsub : l₁ ⊆ l₂) : l₁.length ≤ l₂.length :=
  (h1.subperm hsub).length_le

theorem contains_eq_mem {l : List α} [DecidableEq α] (a : α) :
    (l.contains a = true) ↔ a ∈ l :=
  List.elem_iff

theorem bucketTake_nodup (rand : Nat → Nat) {bucket : List Question} (target : Int)
    (h : bucket.Nodup) : (bucketTake rand bucket target).Nodup := by
  unfold bucketTake
  split
  · exact (jsSlice0_sublist _ _).nodup (shuffleArray_nodup rand h)
  · exact List.nodup_nil

theorem mem_filter_difficulty {available : List Question} {d : String} {x : Question}
    (hx : x ∈ available.filter (fun q => q.difficulty == d)) : x.difficulty = d := by
  have := (List.mem_filter.mp hx).2
  simpa using this

theorem tierPhase_nodup (r : Rands) {available : List Question} (count : Nat)
    (h : available.Nodup) : (tierPhase r available count).Nodup := by
  unfold tierPhase
  rw [List.nodup_append, List.nodup_append]
  refine ⟨⟨bucketTake_nodup _ _ (h.filter _), bucketTake_nodup _ _ (h.filter _), ?_⟩,
      bucketTake_nodup _ _ (h.filter _), ?_⟩
  · intro x hxe hxm
    have he := mem_filter_difficulty (bucketTake_subset _ _ _ hxe)
    have hm := mem_filter_difficulty (bucketTake_subset _ _ _ hxm)
    rw [he] at hm
    exact absurd hm (by decide)
  · intro x hxem hxh
    have hh := mem_filter_difficulty (bucketTake_subset _ _ _ hxh)
    rcases List.mem_append.mp hxem with hx | hx
    · have he := mem_filter_difficulty (bucketTake_subset _ _ _ hx)
      rw [he] at hh
      exact absurd hh (by decide)
    · have hm := mem_filter_difficulty (bucketTake_subset _ _ _ hx)
      rw [hm] at hh
      exact absurd hh (by decide)

theorem length_filter_not_mem {avail sel : List Question}
    (hA : avail.Nodup) (hS : sel.Nodup) (hsub : sel ⊆ avail) :
    (avail.filter (fun q => !(sel.contains q))).length = avail.length - sel.length := by
  have hperm : (avail.filter (fun q => sel.contains q)).Perm sel := by
    rw [List.perm_ext_iff_of_nodup (hA.filter _) hS]
    intro a
    constructor
    · intro ha
      exact (contains_eq_mem a).mp (List.mem_filter.mp ha).2
    · intro ha
      exact List.mem_filter.mpr ⟨hsub ha, (contains_eq_mem a).mpr ha⟩
  have hsplit := (List.filter_append_perm (fun q => sel.contains q) avail).length_eq
  rw [List.length_append] at hsplit
  have hlen := hperm.length_eq
  omega

theorem mixSelect_nodup (r : Rands) {available : List Question} (count : Nat)
    (h : available.Nodup) : (mixSelect r available count).Nodup := by
  rw [mixSelect_eq]
  split
  · rw [List.nodup_append]
    refine ⟨tierPhase_nodup r count h,
        (List.take_sublist _ _).nodup (shuffleArray_nodup _ (h.filter _)), ?_⟩
    intro x hxt hxb
    have hxf := (shuffleArray_perm _ _).subset ((List.take_sublist _ _).subset hxb)
    have := (List.mem_filter.mp hxf).2
    rw [Bool.not_eq_eq_eq_not, Bool.not_true] at this
    have hxt' := (contains_eq_mem (l := tierPhase r available count) x).mpr hxt
    rw [this] at hxt'
    exact Bool.false_ne_true hxt'
  · exact tierPhase_nodup r count h

theorem mixSelect_take_length (r : Rands) {available : List Question} (count : Nat)
    (h : available.Nodup) :
    ((mixSelect r available count).take count).length = min count available.length := by
  have htN := tierPhase_nodup r count h
  have htSub := tierPhase_subset r available count
  have htLe : (tierPhase r available count).length ≤ available.length :=
    nodup_subset_length_le htN htSub
  rw [mixSelect_eq]
  by_cases hlt : (tierPhase r available count).length < count
  · rw [if_pos hlt]
    have hfl : (available.filter (fun q => !((tierPhase r available count).contains q))).length
        = available.length - (tierPhase r available count).length :=
      length_filter_not_mem h htN htSub
    rw [List.length_take, List.length_append, List.length_take, shuffleArray_length, hfl]
    omega
  · rw [if_neg hlt, List.length_take]
    omega

/-- The cooldown filter returns the full candidate list whenever none of the
candidates' identities is in the realm's served set. -/
theorem filter_fst_of_disjoint (st : DBState) (qs : List Question) (realm : String)
    (h : ∀ q ∈ qs, getQuestionId q ∉ ((st.recentlyUsed realm).getD [])) :
    (filterRecentlyUsedQuestions st qs realm).1 = qs := by
  have hfe : qs.filter
      (fun q => !(((st.recentlyUsed realm).getD []).contains (getQuestionId q))) = qs := by
    rw [List.filter_eq_self]
    intro a ha
    have : ¬ (((st.recentlyUsed realm).getD []).contains (getQuestionId a) = true) := by
      intro hc
      exact h a ha ((contains_eq_mem _).mp hc)
    rw [Bool.not_eq_true] at this
    rw [this]
    rfl
  rw [filterRecentlyUsedQuestions_eq, hfe]
  split <;> rfl

theorem shuffleQuestionOptions_length (ropt : Nat → Nat → Nat) :
    ∀ (qs : List Question) (i : Nat), (shuffleQuestionOptions ropt qs i).length = qs.length
  | [], _ => rfl
  | q :: qs, i => by
    rw [shuffleQuestionOptions, List.length_cons, List.length_cons,
      shuffleQuestionOptions_length ropt qs (i + 1)]

theorem getRandomQuestions_length (st : DBState) (realm : String) (count : Nat) (r : Rands) :
    (getRandomQuestions st realm count r).1.length
      = (getBalancedQuestionMix st (resolveCorpus st.bank realm) count r).1.length := by
  rw [getRandomQuestions_fst_eq, (advancedShuffle_perm _ _ _).length_eq,
    shuffleQuestionOptions_length]

theorem ceil04_nonneg (count : Nat) : 0 ≤ ceil04 count :=
  Int.natCast_nonneg _

theorem jsSlice0_zero (l : List α) : jsSlice0 l 0 = [] := by
  simp [jsSlice0]

theorem bucketTake_zero (rand : Nat → Nat) (bucket : List Question) :
    bucketTake rand bucket 0 = [] := by
  unfold bucketTake
  split
  · next hpos =>
    have hmin : min (0 : Int) (bucket.length : Int) = 0 := by omega
    rw [hmin, jsSlice0_zero]
  · rfl

theorem bucketTake_length_nonneg (rand : Nat → Nat) (bucket : List Question) {target : Int}
    (h : 0 ≤ target) :
    (bucketTake rand bucket target).length = min target.toNat bucket.length := by
  unfold bucketTake
  split
  · next hpos =>
    rw [jsSlice0]
    have h0 : 0 ≤ min target (bucket.length : Int) := by omega
    rw [if_pos h0, List.length_take, shuffleArray_length]
    omega
  · next hneg =>
    simp only [List.length_nil]
    omega

theorem bucketTake_length_neg (rand : Nat → Nat) (bucket : List Question) {target : Int}
    (h : target < 0) :
    (bucketTake rand bucket target).length = ((bucket.length : Int) + target).toNat := by
  unfold bucketTake
  split
  · next hpos =>
    have hmin : min target (bucket.length : Int) = target := by omega
    rw [jsSlice0, hmin, if_neg (by omega), List.length_take, shuffleArray_length]
    omega
  · next hneg =>
    simp only [List.length_nil]
    omega

/-! ### Counterexample computations -/

/-- C1 fails as stated: in the `science` corpus fragment holding the two
verbatim gold questions (identical text, identical correct index 2, different
tiers), a request for `n = 2 ≤ |corpus|` questions can return both, and their
`getQuestionId` identities coincide — the selection's identities are not
pairwise distinct. -/
theorem C1_counterexample :
    2 ≤ (resolveCorpus stC1.bank "science").length ∧
    (getRandomQuestions stC1 "science" 2 randsId).1.length = 2 ∧
    ¬ ((getBalancedQuestionMix stC1 (resolveCorpus stC1.bank "science") 2 randsId).1.map
        getQuestionId).Nodup := by
  decide

/-- C2 fails as stated: for options `["A","A","B","C"]` with the second `"A"`
correct and an in-place permutation, the code relocates the correct index to
`0` (first text match) while index tracking would keep it at `1`. -/
theorem C2_counterexample :
    (shuffleOneQuestion idStream qdup).correct = 0 ∧
    specTrackedCorrectIndex idStream qdup = 1 ∧
    (shuffleOneQuestion idStream qdup).correct ≠ specTrackedCorrectIndex idStream qdup := by
  decide

/-- C3 fails as stated: inserting 6 fresh identities into a 60-entry served set
yields 66 entries, above the `cooldownPeriod × batchSize = 60` threshold; the
claim says the set is pruned to the `cooldownPeriod × 3 × batchSize = 180`
most-recent entries (which would keep all 66), but the code keeps only 30. -/
theorem C3_counterexample :
    (setAddAll servedC3 (newQsC3.map getQuestionId)).length = 66 ∧
    66 ≤ questionCooldownPeriod * 3 * 6 ∧
    (((trackRecentlyUsedQuestions stC3 newQsC3 "x").recentlyUsed "x").getD []).length = 30 := by
  decide

/-- C4 fails as stated: at `count = 3`, `2 × ceil(0.4 × 3) = 4 ≥ 3` yet the
tier-targeted phase takes one hard question from a two-question hard bucket
(the unclamped negative target reaches JS `slice(0, -1)`). -/
theorem C4_counterexample :
    3 ≤ 2 * ceil04 3 ∧
    ((3 : Int) - ceil04 3 - ceil04 3 < 0) ∧
    (tierPhase randsId [higgsQ, lightSpeedQ] 3).filter (fun q => q.difficulty == "hard")
      = [higgsQ] := by
  decide

/-- C5 fails as stated: after `clearRecentlyUsedQuestions("r/gaming")`, the next
`getRandomQuestions("r/gaming", …)` call consults the key `"gaming"` (the
lowercased topic), whose set still holds `gq1`; `gq1` is filtered out as
recently used and is absent from the returned batch. -/
theorem C5_counterexample :
    getCurrentRealm (resolveCorpus (clearRecentlyUsedQuestions stC5 (some "r/gaming")).bank
      "r/gaming") = "gaming" ∧
    (clearRecentlyUsedQuestions stC5 (some "r/gaming")).recentlyUsed "gaming"
      = some [getQuestionId gq1] ∧
    (filterRecentlyUsedQuestions (clearRecentlyUsedQuestions stC5 (some "r/gaming"))
      (resolveCorpus stC5.bank "r/gaming") "gaming").1.length = 6 ∧
    gq1 ∉ (filterRecentlyUsedQuestions (clearRecentlyUsedQuestions stC5 (some "r/gaming"))
      (resolveCorpus stC5.bank "r/gaming") "gaming").1 ∧
    ∀ q ∈ (getRandomQuestions (clearRecentlyUsedQuestions stC5 (some "r/gaming"))
      "r/gaming" 6 randsId).1, q.question ≠ gq1.question := by
  decide

/-- C7 fails as stated: a `gaming` corpus of `m = 8` questions with one on
cooldown and `count = 10 > m` returns 7 questions, not `m = 8` (seven fresh
candidates survive the filter, which is not below the floor of 6). -/
theorem C7_counterexample :
    (resolveCorpus stC7.bank "gaming").length = 8 ∧ (8 : Nat) < 10 ∧
    (getRandomQuestions stC7 "gaming" 10 randsId).1.length = 7 := by
  decide

/-! ### Claim theorems -/

/-- C9: `advancedShuffle` — the seeded Fisher–Yates pass followed by the
unseeded pass — returns a permutation of its input, for every input list and
every choice of the two draw streams (hence for every optional session
identifier, whose only effect is selecting the seeded stream): no element is
added, removed, or duplicated. -/
theorem C9_advancedShuffle_permutation {α : Type} (rs ru : Nat → Nat) (l : List α) :
    (advancedShuffle rs ru l).Perm l :=
  advancedShuffle_perm rs ru l

/-- C5 (amended): clearing a realm's cooldown state empties exactly the map
entry for the string passed to `clearRecentlyUsedQuestions`; a subsequent
filter that consults that same key sees an empty served set and filters out
no candidate.  (The claim as stated fails because `getRandomQuestions`
consults the topic-derived key, which differs from an unnormalized argument
such as `"r/gaming"` — see the counterexample.) -/
theorem C5_clear_empties_consulted_key (st : DBState) (questions : List Question)
    (realm : String) :
    (clearRecentlyUsedQuestions st (some realm)).recentlyUsed realm = none ∧
    (filterRecentlyUsedQuestions (clearRecentlyUsedQuestions st (some realm))
      questions realm).1 = questions := by
  constructor
  · simp [clearRecentlyUsedQuestions]
  · have hfilter : questions.filter
        (fun q => !((((clearRecentlyUsedQuestions st (some realm)).recentlyUsed realm).getD
          []).contains (getQuestionId q))) = questions := by
      simp [clearRecentlyUsedQuestions]
    rw [filterRecentlyUsedQuestions_eq, hfilter]
    split <;> rfl

/-- C6: `filterRecentlyUsedQuestions` — when removing the realm's
recently-served identities would leave fewer than the batch floor of 6
candidates, the realm's cooldown set is replaced by an empty set and the full
candidate list is returned; otherwise the filtered list is returned and the
state is unchanged. -/
theorem C6_filter_floor (st : DBState) (questions : List Question) (realm : String) :
    ((questions.filter
        (fun q => !(((st.recentlyUsed realm).getD []).contains (getQuestionId q)))).length < 6 →
      (filterRecentlyUsedQuestions st questions realm).1 = questions ∧
      (filterRecentlyUsedQuestions st questions realm).2.recentlyUsed realm = some []) ∧
    (6 ≤ (questions.filter
        (fun q => !(((st.recentlyUsed realm).getD []).contains (getQuestionId q)))).length →
      (filterRecentlyUsedQuestions st questions realm).1 = questions.filter
        (fun q => !(((st.recentlyUsed realm).getD []).contains (getQuestionId q))) ∧
      (filterRecentlyUsedQuestions st questions realm).2 = st) := by
  constructor
  · intro h
    rw [filterRecentlyUsedQuestions_eq, if_pos h]
    exact ⟨rfl, by simp⟩
  · intro h
    have h' : ¬ (questions.filter
        (fun q => !(((st.recentlyUsed realm).getD []).contains (getQuestionId q)))).length < 6 :=
      Nat.not_lt.mpr h
    rw [filterRecentlyUsedQuestions_eq, if_neg h']
    exact ⟨rfl, rfl⟩

/-- C6 witness: both branches exercised on concrete states — the 7-question
gaming bank with one served identity keeps its 6 fresh candidates and leaves
the state untouched, while a 2-question corpus falls below the floor and gets
the full list back with a reset set. -/
theorem C6_filter_floor_witness :
    (filterRecentlyUsedQuestions stC5 [gq1, gq2, gq3, gq4, gq5, gq6, gq7] "gaming").1.length = 6 ∧
    (filterRecentlyUsedQuestions stC1 [goldEasy, goldMedium] "science").1
      = [goldEasy, goldMedium] := by
  constructor
  · have h := (C6_filter_floor stC5 [gq1, gq2, gq3, gq4, gq5, gq6, gq7] "gaming").2 (by decide)
    rw [h.1]
    decide
  · exact ((C6_filter_floor stC1 [goldEasy, goldMedium] "science").1 (by decide)).1

/-- C3 (amended): after `trackRecentlyUsedQuestions` inserts the selected
identities, the stored set is a suffix (the most-recently-added entries) of
the inserted sequence; it is pruned to `questionCooldownPeriod × 3 = 30`
entries when the insertion exceeded `questionCooldownPeriod × 6 = 60`, and is
the full insertion otherwise — not the `cooldownPeriod × 3 × batchSize = 180`
of the claim. -/
theorem C3_track_prunes_to_thirty (st : DBState) (qs : List Question) (realm : String) :
    List.IsSuffix (((trackRecentlyUsedQuestions st qs realm).recentlyUsed realm).getD [])
      (setAddAll ((st.recentlyUsed realm).getD []) (qs.map getQuestionId)) ∧
    (((trackRecentlyUsedQuestions st qs realm).recentlyUsed realm).getD []).length
      = if questionCooldownPeriod * 6
            < (setAddAll ((st.recentlyUsed realm).getD []) (qs.map getQuestionId)).length
        then questionCooldownPeriod * 3
        else (setAddAll ((st.recentlyUsed realm).getD []) (qs.map getQuestionId)).length := by
  rw [trackRecentlyUsedQuestions_eq]
  dsimp only
  rw [if_pos rfl, Option.getD_some]
  have hq : questionCooldownPeriod = 10 := rfl
  by_cases hlen : questionCooldownPeriod * 6
      < (setAddAll ((st.recentlyUsed realm).getD []) (qs.map getQuestionId)).length
  · rw [if_pos hlen, if_pos hlen, List.length_drop]
    exact ⟨List.drop_suffix _ _, by omega⟩
  · rw [if_neg hlen, if_neg hlen]
    exact ⟨List.suffix_refl _, rfl⟩

/-- C10: from any state in which every realm's recently-used set has at most
`questionCooldownPeriod × 6 = 60` entries, both public operations
(`getRandomQuestions` with arbitrary arguments and `clearRecentlyUsedQuestions`)
return with every realm's set again at most 60 entries (the prune step, when
it fires, cuts the updated set to `questionCooldownPeriod × 3 = 30`). -/
theorem C10_cooldown_sets_bounded (st : DBState)
    (h : ∀ r, ((st.recentlyUsed r).getD []).length ≤ questionCooldownPeriod * 6)
    (realm : String) (count : Nat) (rands : Rands) (realmC : Option String) :
    (∀ r, (((getRandomQuestions st realm count rands).2.recentlyUsed r).getD []).length
        ≤ questionCooldownPeriod * 6) ∧
    (∀ r, (((clearRecentlyUsedQuestions st realmC).recentlyUsed r).getD []).length
        ≤ questionCooldownPeriod * 6) := by
  constructor
  · intro r
    show ((((trackRecentlyUsedQuestions _ _ _).recentlyUsed r).getD [])).length ≤ _
    exact track_state_bound _ _ _ (filterRecentlyUsed_state_bound h) r
  · exact clear_state_bound st realmC h

/-- C10 witness: the bound instantiated on the concrete science-fragment
state (whose sets are all empty, hence within the bound). -/
theorem C10_cooldown_sets_bounded_witness :
    (((getRandomQuestions stC1 "science" 2 randsId).2.recentlyUsed "science").getD []).length
      ≤ questionCooldownPeriod * 6 :=
  (C10_cooldown_sets_bounded stC1 (fun r => by simp [stC1]) "science" 2 randsId none).1 "science"

/-- C8: every question returned by `getRandomQuestions` is the option-shuffle
of some candidate question of the resolved corpus, and whenever that
candidate's correct index is valid (`0 ≤ correct < len(options)`), the
returned question has the same number of options and the option at its
updated correct index carries the same text as the option that was correct
before shuffling. -/
theorem C8_correct_option_preserved (st : DBState) (realm : String) (count : Nat)
    (r : Rands) (q' : Question) (hq' : q' ∈ (getRandomQuestions st realm count r).1) :
    ∃ (q : Question) (rand : Nat → Nat), q ∈ resolveCorpus st.bank realm ∧
      q' = shuffleOneQuestion rand q ∧
      (0 ≤ q.correct → q.correct < (q.options.length : Int) →
        q'.options.length = q.options.length ∧
        jsGet q'.options q'.correct = jsGet q.options q.correct) := by
  rw [getRandomQuestions_fst_eq] at hq'
  have hq2 := (advancedShuffle_perm r.seeded r.unseeded _).mem_iff.mp hq'
  obtain ⟨j, q, hqmem, rfl⟩ := shuffleQuestionOptions_mem _ 0 q' hq2
  refine ⟨q, r.opt j, ?_, rfl, ?_⟩
  · rw [getBalancedQuestionMix_fst_eq] at hqmem
    exact filterRecentlyUsed_fst_subset _ _ _
      (mixSelect_subset _ _ _ ((List.take_sublist _ _).subset hqmem))
  · intro h0 hlt
    exact shuffleOneQuestion_correct_text (r.opt j) q h0 hlt

/-- C8 witness: instantiated on the science-fragment bank, where the in-place
run returns `goldEasy` itself. -/
theorem C8_correct_option_preserved_witness :
    ∃ (q : Question) (rand : Nat → Nat), q ∈ resolveCorpus stC1.bank "science" ∧
      goldEasy = shuffleOneQuestion rand q ∧
      (0 ≤ q.correct → q.correct < (q.options.length : Int) →
        goldEasy.options.length = q.options.length ∧
        jsGet goldEasy.options goldEasy.correct = jsGet q.options q.correct) :=
  C8_correct_option_preserved stC1 "science" 2 randsId goldEasy (by decide)

/-- C2 (amended): the code relocates the correct index by first-occurrence
text lookup (`indexOf` of the captured correct text); whenever the correct
option's text occurs exactly once among the options, this coincides with the
spec's original-index tracking, but with duplicate texts it can differ (see
the counterexample). -/
theorem C2_text_lookup_matches_tracking_when_unique (rand : Nat → Nat) (q : Question)
    (t : String) (h0 : 0 ≤ q.correct) (hlt : q.correct < (q.options.length : Int))
    (hcap : jsGet q.options q.correct = some t) (huniq : q.options.count t = 1) :
    (shuffleOneQuestion rand q).correct = specTrackedCorrectIndex rand q := by
  obtain ⟨hn, hget⟩ := jsGet_valid h0 hlt
  have ht : t = q.options.get ⟨q.correct.toNat, hn⟩ := by
    rw [hcap] at hget
    exact Option.some.inj hget
  have hcast : ((q.correct.toNat : Nat) : Int) = q.correct := by omega
  have htag_get : (enumAux 0 q.options).get? q.correct.toNat = some (q.correct.toNat, t) := by
    rw [enumAux_get?, List.get?_eq_get hn]
    simp [ht]
  have htag_mem : (q.correct.toNat, t) ∈ enumAux 0 q.options := List.get?_mem htag_get
  have hperm := shuffleArray_perm rand (enumAux 0 q.options)
  obtain ⟨⟨k, hk⟩, hgetk⟩ := List.mem_iff_get.mp (hperm.mem_iff.mpr htag_mem)
  have hcount_tag : (shuffleArray rand (enumAux 0 q.options)).countP
      (fun pr => pr.1 == q.correct.toNat) = 1 := by
    rw [hperm.countP_eq, enumAux_countP_fst]
    rw [if_pos ⟨Nat.zero_le _, by omega⟩]
  have hspec : specTrackedCorrectIndex rand q
      = firstIdxAux (fun pr => pr.1 == q.correct.toNat)
          (shuffleArray rand (enumAux 0 q.options)) 0 := by
    unfold specTrackedCorrectIndex
    congr 1
    funext pr
    by_cases hh : pr.1 = q.correct.toNat
    · have h1 : ((pr.1 : Int) == q.correct) = true := by
        rw [beq_iff_eq]
        omega
      have h2 : (pr.1 == q.correct.toNat) = true := by
        rw [beq_iff_eq]
        exact hh
      rw [h1, h2]
    · have h1 : ((pr.1 : Int) == q.correct) = false := by
        rw [beq_eq_false_iff_ne]
        omega
      have h2 : (pr.1 == q.correct.toNat) = false := by
        rw [beq_eq_false_iff_ne]
        exact hh
      rw [h1, h2]
  have hpredk : (fun pr : Nat × String => pr.1 == q.correct.toNat)
      ((shuffleArray rand (enumAux 0 q.options)).get ⟨k, hk⟩) = true := by
    rw [hgetk]
    simp
  have hspec_val : specTrackedCorrectIndex rand q = (k : Int) := by
    rw [hspec, firstIdxAux_eq_of_countP_one _ 0 k hk hcount_tag hpredk]
    simp
  have hopts : shuffleArray rand q.options
      = (shuffleArray rand (enumAux 0 q.options)).map Prod.snd := by
    conv_lhs => rw [← enumAux_map_snd 0 q.options]
    exact shuffleArray_map _ _ _
  have hk2 : k < (shuffleArray rand q.options).length := by
    rw [hopts, List.length_map]
    exact hk
  have hcount_opts : (shuffleArray rand q.options).countP (fun x => x == t) = 1 := by
    rw [(shuffleArray_perm rand q.options).countP_eq]
    exact huniq
  have hkt : (fun x : String => x == t) ((shuffleArray rand q.options).get ⟨k, hk2⟩) = true := by
    have hmapget : (shuffleArray rand q.options).get ⟨k, hk2⟩
        = ((shuffleArray rand (enumAux 0 q.options)).get ⟨k, hk⟩).2 := by
      simp only [List.get_eq_getElem]
      rw [List.getElem_of_eq hopts, List.getElem_map]
    rw [hmapget, hgetk]
    simp
  have hcode : jsIndexOf (shuffleArray rand q.options) t = (k : Int) := by
    unfold jsIndexOf
    rw [firstIdxAux_eq_of_countP_one _ 0 k hk2 hcount_opts hkt]
    simp
  rw [shuffleOneQuestion_eq]
  show (match jsGet q.options q.correct with
        | some s => jsIndexOf (shuffleArray rand q.options) s
        | none => -1) = _
  rw [hcap]
  show jsIndexOf (shuffleArray rand q.options) t = specTrackedCorrectIndex rand q
  rw [hcode, hspec_val]

/-- C2 witness: on `goldEasy` (unique correct text `"Au"`) the code's
relocated index equals the tracked index. -/
theorem C2_text_lookup_matches_tracking_witness :
    (shuffleOneQuestion idStream goldEasy).correct = specTrackedCorrectIndex idStream goldEasy :=
  C2_text_lookup_matches_tracking_when_unique idStream goldEasy "Au"
    (by decide) (by decide) (by decide) (by decide)

/-- C1 (amended): when no corpus question is on cooldown for the consulted
realm key (e.g. on a first request) and the corpus's `getQuestionId`
identities are pairwise distinct, `getRandomQuestions(R, n, seed)` with
`n ≤ |corpus(R)|` returns exactly `n` questions and the selection's
identities are pairwise distinct.  (As the counterexample shows, the
identity-distinctness hypothesis is falsified by the real science corpus;
with questions on cooldown the count can also fall short.) -/
theorem C1_selection_exact_and_distinct (st : DBState) (realm : String) (count : Nat)
    (r : Rands)
    (hids : ((resolveCorpus st.bank realm).map getQuestionId).Nodup)
    (hserved : ∀ q ∈ resolveCorpus st.bank realm, getQuestionId q ∉
        ((st.recentlyUsed (getCurrentRealm (resolveCorpus st.bank realm))).getD []))
    (hcount : count ≤ (resolveCorpus st.bank realm).length) :
    (getRandomQuestions st realm count r).1.length = count ∧
    ((getBalancedQuestionMix st (resolveCorpus st.bank realm) count r).1.map
      getQuestionId).Nodup := by
  have hnodup : (resolveCorpus st.bank realm).Nodup := List.Nodup.of_map _ hids
  have hfst := filter_fst_of_disjoint st (resolveCorpus st.bank realm)
    (getCurrentRealm (resolveCorpus st.bank realm)) hserved
  have hmix : (getBalancedQuestionMix st (resolveCorpus st.bank realm) count r).1
      = (mixSelect r (resolveCorpus st.bank realm) count).take count := by
    rw [getBalancedQuestionMix_fst_eq, hfst]
  have hlen : (getBalancedQuestionMix st (resolveCorpus st.bank realm) count r).1.length
      = count := by
    rw [hmix, mixSelect_take_length r count hnodup]
    omega
  refine ⟨?_, ?_⟩
  · rw [getRandomQuestions_length, hlen]
  · have hselN : ((getBalancedQuestionMix st (resolveCorpus st.bank realm) count r).1).Nodup := by
      rw [hmix]
      exact (List.take_sublist _ _).nodup (mixSelect_nodup r count hnodup)
    have hsub : (getBalancedQuestionMix st (resolveCorpus st.bank realm) count r).1
        ⊆ resolveCorpus st.bank realm := by
      rw [hmix]
      exact fun x hx => mixSelect_subset _ _ _ ((List.take_sublist _ _).subset hx)
    exact List.Nodup.map_on
      (fun x hx y hy he => List.inj_on_of_nodup_map hids (hsub hx) (hsub hy) he) hselN

/-- C1 witness: a fresh 7-question gaming bank with distinct identities at
`count = 6` delivers exactly 6 questions with pairwise distinct identities. -/
theorem C1_selection_exact_and_distinct_witness :
    (getRandomQuestions stFresh "gaming" 6 randsId).1.length = 6 ∧
    ((getBalancedQuestionMix stFresh (resolveCorpus stFresh.bank "gaming") 6 randsId).1.map
      getQuestionId).Nodup :=
  C1_selection_exact_and_distinct stFresh "gaming" 6 randsId
    (by decide) (by decide) (by decide)

/-- C7 (amended): if the realm's corpus after fallback has `m < count`
pairwise-distinct questions and none of them is on cooldown for the consulted
key (in particular on a first request; also whenever `m < 6`, since the
filter then always resets), `getRandomQuestions` returns exactly `m`
questions, the selection has no duplicate picks, and no error is possible;
with corpus questions on cooldown and `m ≥ 6`, the result instead has one
question per surviving candidate, which can be fewer than `m` (see the
counterexample). -/
theorem C7_small_corpus_returns_all (st : DBState) (realm : String) (count : Nat) (r : Rands)
    (hnodup : (resolveCorpus st.bank realm).Nodup)
    (hserved : ∀ q ∈ resolveCorpus st.bank realm, getQuestionId q ∉
        ((st.recentlyUsed (getCurrentRealm (resolveCorpus st.bank realm))).getD []))
    (hsmall : (resolveCorpus st.bank realm).length < count) :
    (getRandomQuestions st realm count r).1.length = (resolveCorpus st.bank realm).length ∧
    ((getBalancedQuestionMix st (resolveCorpus st.bank realm) count r).1).Nodup := by
  have hfst := filter_fst_of_disjoint st (resolveCorpus st.bank realm)
    (getCurrentRealm (resolveCorpus st.bank realm)) hserved
  have hmix : (getBalancedQuestionMix st (resolveCorpus st.bank realm) count r).1
      = (mixSelect r (resolveCorpus st.bank realm) count).take count := by
    rw [getBalancedQuestionMix_fst_eq, hfst]
  constructor
  · rw [getRandomQuestions_length, hmix, mixSelect_take_length r count hnodup]
    omega
  · rw [hmix]
    exact (List.take_sublist _ _).nodup (mixSelect_nodup r count hnodup)

/-- C7 witness: the fresh 7-question gaming corpus at `count = 10` returns
exactly 7 distinct picks. -/
theorem C7_small_corpus_returns_all_witness :
    (getRandomQuestions stFresh "gaming" 10 randsId).1.length
      = (resolveCorpus stFresh.bank "gaming").length ∧
    ((getBalancedQuestionMix stFresh (resolveCorpus stFresh.bank "gaming") 10 randsId).1).Nodup :=
  C7_small_corpus_returns_all stFresh "gaming" 10 randsId
    (by decide) (by decide) (by decide)

/-- C4 (amended): in the tier-targeted phase, easy and medium each contribute
`min(ceil(0.4·count), bucket size)` questions, and the hard target
`count − 2·ceil(0.4·count)` is **not** clamped: when it is zero (i.e.
`2·ceil(0.4·count) = count`) no hard question is taken, but when it is
negative (count ∈ {1,3}) the JS `slice(0, negative)` semantics takes
`bucket size + hardTarget` (clamped at zero) hard questions — for a hard
bucket of size ≥ 2 at `count = 3`, one hard question is taken in that phase
(see the counterexample). -/
theorem C4_tier_targets (r : Rands) (available : List Question) (count : Nat) :
    tierPhase r available count
      = bucketTake r.easy (available.filter (fun q => q.difficulty == "easy"))
          (ceil04 count) ++
        bucketTake r.medium (available.filter (fun q => q.difficulty == "medium"))
          (ceil04 count) ++
        bucketTake r.hard (available.filter (fun q => q.difficulty == "hard"))
          ((count : Int) - ceil04 count - ceil04 count) ∧
    (bucketTake r.easy (available.filter (fun q => q.difficulty == "easy"))
        (ceil04 count)).length
      = min (ceil04 count).toNat (available.filter (fun q => q.difficulty == "easy")).length ∧
    (bucketTake r.medium (available.filter (fun q => q.difficulty == "medium"))
        (ceil04 count)).length
      = min (ceil04 count).toNat (available.filter (fun q => q.difficulty == "medium")).length ∧
    (2 * ceil04 count = (count : Int) →
      bucketTake r.hard (available.filter (fun q => q.difficulty == "hard"))
        ((count : Int) - ceil04 count - ceil04 count) = []) ∧
    ((count : Int) - ceil04 count - ceil04 count < 0 →
      (bucketTake r.hard (available.filter (fun q => q.difficulty == "hard"))
          ((count : Int) - ceil04 count - ceil04 count)).length
        = (((available.filter (fun q => q.difficulty == "hard")).length : Int)
            + ((count : Int) - ceil04 count - ceil04 count)).toNat) := by
  refine ⟨rfl, bucketTake_length_nonneg _ _ (ceil04_nonneg count),
      bucketTake_length_nonneg _ _ (ceil04_nonneg count), ?_, ?_⟩
  · intro h0
    have hz : (count : Int) - ceil04 count - ceil04 count = 0 := by omega
    rw [hz]
    exact bucketTake_zero _ _
  · intro hneg
    exact bucketTake_length_neg _ _ hneg

/-- C4 witness: at `count = 6` the hard target is zero and no hard question
is taken; at `count = 3` with a two-question hard bucket, one is taken. -/
theorem C4_tier_targets_witness :
    bucketTake randsId.hard ([higgsQ, lightSpeedQ].filter (fun q => q.difficulty == "hard"))
        ((6 : Int) - ceil04 6 - ceil04 6) = [] ∧
    (bucketTake randsId.hard ([higgsQ, lightSpeedQ].filter (fun q => q.difficulty == "hard"))
        ((3 : Int) - ceil04 3 - ceil04 3)).length
      = ((([higgsQ, lightSpeedQ].filter (fun q => q.difficulty == "hard")).length : Int)
          + ((3 : Int) - ceil04 3 - ceil04 3)).toNat := by
  constructor
  · exact (C4_tier_targets randsId [higgsQ, lightSpeedQ] 6).2.2.2.1 (by decide)
  · exact (C4_tier_targets randsId [higgsQ, lightSpeedQ] 3).2.2.2.2 (by decide)

end RealmQuiz
